import Mathlib

/-!
Verification of the model-selection and settings-synchronization core of the
ollama-gnome client (src/code.py, with the variant src/code_beta_123.py).

Python strings are embedded as lists of unicode scalar characters (`PyStr`);
Python string operations used by the code (`str.lower`, `str.strip`,
`str.startswith`, `str.endswith`, the `in` substring test) are defined below
over that representation.
-/

/-- Embedding of a Python `str` as a list of characters. -/
abbrev PyStr := List Char

/-- The whitespace characters removed by Python `str.strip()` (ASCII range). -/
def isPySpace (c : Char) : Bool :=
  c = ' ' || c = '\t' || c = '\n' || c = '\r' || c = Char.ofNat 11 || c = Char.ofNat 12

/-- Python `str.strip()`: drop leading and trailing whitespace. -/
def pyStrip (s : PyStr) : PyStr :=
  ((s.dropWhile isPySpace).reverse.dropWhile isPySpace).reverse

/-- Python `str.lower()` (ASCII case folding, as used on model identifiers). -/
def pyLower (s : PyStr) : PyStr := s.map Char.toLower

/-- `startsWithL s pat`: Python `s.startswith(pat)`. -/
def startsWithL : PyStr → PyStr → Bool
  | _, [] => true
  | [], _ :: _ => false
  | c :: s, p :: pat => c = p && startsWithL s pat

/-- `containsSub s pat`: Python `pat in s` (contiguous substring test). -/
def containsSub : PyStr → PyStr → Bool
  | s, pat =>
    startsWithL s pat ||
      match s with
      | [] => false
      | _ :: t => containsSub t pat

/-- `endsWithL s pat`: Python `s.endswith(pat)`. -/
def endsWithL (s pat : PyStr) : Bool := startsWithL s.reverse pat.reverse

/-!
## Model filter and display projection

Embeds `_model_filter_func` (src/code.py lines 1276-1284) and
`_populate_display_model` (src/code.py lines 1286-1320).  The search text
held in `_model_search_text` is always the stripped, lower-cased entry text
(set in `_on_model_search_changed`).
-/

/-- `_model_filter_func`: an item is visible iff the search text is empty or
the lower-cased item contains the search text. -/
def modelFilterFunc (search : PyStr) (value : PyStr) : Bool :=
  if search = [] then true else containsSub (pyLower value) search

/-- The visible subset of the catalog under a search text: the rows the
`GtkTreeModelFilter` (`model_filter`) exposes. -/
def visibleModels (catalog : List PyStr) (search : PyStr) : List PyStr :=
  catalog.filter (fun v => modelFilterFunc search v)

/-- The classification loop of `_populate_display_model`: one pass over the
filtered items, appending each to the `exact_matches`, `starts_with` or
`contains` list according to its lower-cased form. -/
def splitBuckets (search : PyStr) : List PyStr → List PyStr × List PyStr × List PyStr
  | [] => ([], [], [])
  | item :: rest =>
    let r := splitBuckets search rest
    let il := pyLower item
    if il = search then (item :: r.1, r.2.1, r.2.2)
    else if startsWithL il search then (r.1, item :: r.2.1, r.2.2)
    else (r.1, r.2.1, item :: r.2.2)

/-- `_populate_display_model` composed with the filter: the display list shown
in the chat picker for a given catalog (`model_store_settings` contents) and
search text.  With a non-empty search the filtered items are re-ordered as
`exact_matches + starts_with + contains`; with an empty search they are kept
in catalog order. -/
def populateDisplayModel (catalog : List PyStr) (search : PyStr) : List PyStr :=
  let filteredItems := visibleModels catalog search
  if search = [] then filteredItems
  else
    let r := splitBuckets search filteredItems
    r.1 ++ r.2.1 ++ r.2.2

/-- An item lands in the `exact_matches` bucket: its case-folded form equals
the search text. -/
def isExactMatch (search i : PyStr) : Bool := pyLower i = search

/-- An item lands in the `starts_with` bucket: not exact, and its case-folded
form starts with the search text. -/
def isStartsMatch (search i : PyStr) : Bool :=
  !(isExactMatch search i) && startsWithL (pyLower i) search

/-- An item lands in the `contains` bucket: the remaining visible items. -/
def isContainMatch (search i : PyStr) : Bool :=
  !(isExactMatch search i) && !(startsWithL (pyLower i) search)

/-!
## Deduplication (fetch_models, src/code.py lines 1004-1010)

`seen = set(); unique = []; for m in models: if m not in seen: unique.append(m); seen.add(m)`
-/

/-- The deduplication loop of `fetch_models`, with the `seen` set carried as a
list. -/
def dedupeGo (seen : List PyStr) : List PyStr → List PyStr
  | [] => []
  | m :: rest => if m ∈ seen then dedupeGo seen rest else m :: dedupeGo (m :: seen) rest

/-- Deduplication step of `fetch_models`: drop every occurrence after the
first, preserving first-seen order. -/
def dedupe (models : List PyStr) : List PyStr := dedupeGo [] models

/-!
## UI state and the picker synchronizer

The pieces of `MainWindow` state the synchronization claims speak about.
`combo_model` (chat picker, no entry) renders `display_model`;
`combo_model_settings` (settings picker, with entry) renders
`model_store_settings`.  Active indices use GTK's convention: `-1` means no
selection.  `settingsModel` is the `model` field of the settings record
written by `save_settings`.
-/

structure UIState where
  storeSettings : List PyStr
  displayModel : List PyStr
  chatActive : Int
  settingsActive : Int
  settingsEntryText : PyStr
  searchText : PyStr
  settingsModel : Option PyStr
  updatingCombo : Bool
  deriving Repr, DecidableEq

/-- Row of a list store at a GTK active index (`-1` or out of range: none). -/
def rowAt (rows : List PyStr) (i : Int) : Option PyStr :=
  if 0 ≤ i then rows[i.toNat]? else none

/-- The chat picker's selected value: the `display_model` row at its active
index. -/
def chatValue (st : UIState) : Option PyStr := rowAt st.displayModel st.chatActive

/-- The settings picker's selected row value (by active index into
`model_store_settings`). -/
def settingsRowValue (st : UIState) : Option PyStr := rowAt st.storeSettings st.settingsActive

/-- GTK `set_active` on `combo_model_settings`: sets the active row and, the
combo having an entry with `entry_text_column = 0`, copies the row's text into
the entry.  An out-of-range index clears the selection (no theorem below
relies on the out-of-range case). -/
def setActiveSettings (st : UIState) (i : Int) : UIState :=
  match rowAt st.storeSettings i with
  | some v => { st with settingsActive := i, settingsEntryText := v }
  | none => { st with settingsActive := -1 }

/-- GTK `set_active` on `combo_model` (no entry). -/
def setActiveChat (st : UIState) (i : Int) : UIState :=
  match rowAt st.displayModel i with
  | some _ => { st with chatActive := i }
  | none => { st with chatActive := -1 }

/-- `sync_model_combo(combo_model, combo_model_settings)` (src/code.py lines
657-664, connected at line 667): under the re-entrancy guard, copies the chat
picker's active *index* onto the settings picker.  The target's own "changed"
handlers fire during `set_active` but return immediately because
`_updating_combo` is set, so they are not modelled. -/
def syncChatToSettings (st : UIState) : UIState :=
  if st.updatingCombo then st
  else if 0 ≤ st.chatActive then
    let st' := setActiveSettings { st with updatingCombo := true } st.chatActive
    { st' with updatingCombo := false }
  else st

/-- `sync_model_combo(combo_model_settings, combo_model)` (src/code.py lines
230-239 and 657-664, connected at lines 239 and 669): copies the settings
picker's active index onto the chat picker. -/
def syncSettingsToChat (st : UIState) : UIState :=
  if st.updatingCombo then st
  else if 0 ≤ st.settingsActive then
    let st' := setActiveChat { st with updatingCombo := true } st.settingsActive
    { st' with updatingCombo := false }
  else st

/-- `_on_combo_model_changed` (src/code.py lines 1322-1337): writes the chat
picker's selected value into the settings picker's entry. -/
def onComboModelChanged (st : UIState) : UIState :=
  if st.updatingCombo then st
  else
    match rowAt st.displayModel st.chatActive with
    | some v => { st with settingsEntryText := v }
    | none => st

/-- `save_last_model` (src/code.py lines 242-263) invoked for `combo_model`:
reads the selected value from `display_model` and, when non-empty, stores it
as `settings["model"]` and saves. -/
def saveLastModelChat (st : UIState) : UIState :=
  if st.updatingCombo then st
  else
    match rowAt st.displayModel st.chatActive with
    | some v => if v ≠ [] then { st with settingsModel := some v } else st
    | none => st

/-- `save_last_model` invoked for `combo_model_settings`: reads the selected
value from `model_store_settings`. -/
def saveLastModelSettings (st : UIState) : UIState :=
  if st.updatingCombo then st
  else
    match rowAt st.storeSettings st.settingsActive with
    | some v => if v ≠ [] then { st with settingsModel := some v } else st
    | none => st

/-- A user-driven selection of row `i` in the chat picker: GTK sets the active
row and emits "changed"; the handlers run in connection order —
`sync_model_combo` (chat → settings, line 667), `_on_combo_model_changed`
(line 668), `save_last_model` (line 265). -/
def userSelectChat (st : UIState) (i : Int) : UIState :=
  saveLastModelChat (onComboModelChanged (syncChatToSettings (setActiveChat st i)))

/-- A user-driven selection of row `i` in the settings picker: GTK sets the
active row (updating the entry text) and emits "changed"; the handlers run in
connection order — `sync_model_combo` (settings → chat, line 669), the same
sync connected again (line 239), `save_last_model` (line 266). -/
def userSelectSettings (st : UIState) (i : Int) : UIState :=
  saveLastModelSettings (syncSettingsToChat (syncSettingsToChat (setActiveSettings st i)))

/-!
## Search handler and save handler selection policy
-/

/-- `_on_model_search_changed` (src/code.py lines 1241-1274): stores the
stripped lower-cased entry text, refilters, repopulates `display_model`, then
— under the re-entrancy guard — calls `set_active(-1)` and, when the new
display list is non-empty, selects its middle index `len // 2`.  (The
`current_model` captured before filtering is never used afterwards.) -/
def onModelSearchChanged (st : UIState) (entryText : PyStr) : UIState :=
  if st.updatingCombo then st
  else
    let text := pyLower (pyStrip entryText)
    let display' := populateDisplayModel st.storeSettings text
    let newActive : Int := if display'.length > 0 then ((display'.length / 2 : Nat) : Int) else -1
    { st with searchText := text, displayModel := display', chatActive := newActive }

/-- `_on_model_search_changed` in the beta variant (src/code_beta_123.py lines
1201-1209): there `combo_model` renders `model_filter` directly, so the
visible list is the filtered subset in catalog order, and the selection is
reset with `set_active(-1)` unconditionally. -/
def onModelSearchChangedBeta (st : UIState) (entryText : PyStr) : UIState :=
  let text := pyLower (pyStrip entryText)
  { st with searchText := text,
            displayModel := visibleModels st.storeSettings text,
            chatActive := -1 }

/-!
## Saving settings: base URL normalization (on_save_clicked, lines 891-931)
-/

/-- The `base_url` value `on_save_clicked` stores: the entry text is stripped
and, when non-empty and lacking one, a trailing "/" is appended (src/code.py
lines 894 and 919-920); the result is assigned to `settings["base_url"]`
unconditionally (line 923). -/
def savedBaseUrl (baseUrlEntryText : PyStr) : PyStr :=
  let base_url := pyStrip baseUrlEntryText
  if base_url ≠ [] && !endsWithL base_url ['/'] then base_url ++ ['/'] else base_url

/-- The settings record after `on_save_clicked` stores the base URL field. -/
structure SettingsRecord where
  base_url : Option PyStr
  model : Option PyStr
  deriving Repr, DecidableEq

/-- `on_save_clicked`'s write of `base_url` into the settings record
(src/code.py line 923, unconditional). -/
def onSaveStoreBaseUrl (s : SettingsRecord) (baseUrlEntryText : PyStr) : SettingsRecord :=
  { s with base_url := some (savedBaseUrl baseUrlEntryText) }

/-!
## get_selected_model and the send gate
-/

/-- `get_selected_model` (src/code.py lines 1119-1135).  Only the settings
combo's entry text is consulted; the block reading `combo_model` (lines
1130-1135) stands after the unconditional `return ""` on line 1129, so it is
unreachable and has no counterpart here. -/
def getSelectedModel (st : UIState) : PyStr :=
  let val := pyStrip st.settingsEntryText
  if val ≠ [] then val else []

/-- Outcome of the first validation gate of `on_send_clicked`. -/
inductive SendOutcome
  | modelValidationError
  | proceed (model : PyStr)
  deriving Repr, DecidableEq

/-- The first gate of `on_send_clicked` (src/code.py lines 1137-1142): if
`get_selected_model()` is empty the status message "Please select or enter a
model" is shown and no request is issued. -/
def onSendClickedGate (st : UIState) : SendOutcome :=
  let model := getSelectedModel st
  if model = [] then .modelValidationError else .proceed model

/-!
## JSON values and Python `json.dumps(..., indent=2)`

The settings file, the model cache and the chat responses are JSON.  `JVal`
embeds the JSON values involved (floats are not used by any claim and are
omitted).  `pyDumps2` embeds `json.dumps(v, indent=2)` with the default
`ensure_ascii=True` escaping.
-/

inductive JVal where
  | jnull
  | jbool (b : Bool)
  | jint (n : Int)
  | jstr (s : PyStr)
  | jarr (items : List JVal)
  | jobj (fields : List (PyStr × JVal))

/-- `{` (written via its code point to keep it out of the source text). -/
def lbrace : Char := Char.ofNat 123

/-- `}`. -/
def rbrace : Char := Char.ofNat 125

/-- Lower-case hex digit for `n < 16`. -/
def hexDigitChar (n : Nat) : Char :=
  if n < 10 then Char.ofNat (48 + n) else Char.ofNat (87 + n)

/-- Four-digit hex rendering of `n < 0x10000`, as in Python's `\uXXXX`. -/
def encodeHex4 (n : Nat) : PyStr :=
  [hexDigitChar (n / 4096 % 16), hexDigitChar (n / 256 % 16),
   hexDigitChar (n / 16 % 16), hexDigitChar (n % 16)]

/-- Python `json` string escaping with `ensure_ascii=True`: `"` and `\`
escaped, the short escapes `\b \t \n \f \r`, printable ASCII kept, everything
else as `\uXXXX` (with a surrogate pair beyond the BMP). -/
def escapeChar (c : Char) : PyStr :=
  let n := c.toNat
  if c = '"' then ['\\', '"']
  else if c = '\\' then ['\\', '\\']
  else if n = 8 then ['\\', 'b']
  else if n = 9 then ['\\', 't']
  else if n = 10 then ['\\', 'n']
  else if n = 12 then ['\\', 'f']
  else if n = 13 then ['\\', 'r']
  else if 32 ≤ n && n ≤ 126 then [c]
  else if n < 65536 then '\\' :: 'u' :: encodeHex4 n
  else
    let v := n - 65536
    ('\\' :: 'u' :: encodeHex4 (55296 + v / 1024)) ++
      ('\\' :: 'u' :: encodeHex4 (56320 + v % 1024))

/-- Escaped body of a JSON string literal. -/
def escapeString (s : PyStr) : PyStr := (s.map escapeChar).flatten

/-- A JSON string literal: `"`…escaped…`"`. -/
def jstrLit (s : PyStr) : PyStr := '"' :: escapeString s ++ ['"']

/-- Decimal rendering of an integer as Python's `str`. -/
def intRepr (n : Int) : PyStr :=
  if n < 0 then '-' :: Nat.toDigits 10 n.natAbs else Nat.toDigits 10 n.natAbs

/-- Newline followed by the indentation of `json.dumps(..., indent=2)` at a
nesting level. -/
def nlIndent (level : Nat) : PyStr := '\n' :: List.replicate (2 * level) ' '

mutual

/-- `json.dumps(v, indent=2)` at a nesting level. -/
def dumpJVal (level : Nat) : JVal → PyStr
  | .jnull => ['n', 'u', 'l', 'l']
  | .jbool true => ['t', 'r', 'u', 'e']
  | .jbool false => ['f', 'a', 'l', 's', 'e']
  | .jint n => intRepr n
  | .jstr s => jstrLit s
  | .jarr [] => ['[', ']']
  | .jarr (x :: xs) =>
    '[' :: nlIndent (level + 1) ++ dumpArrItems (level + 1) x xs ++ nlIndent level ++ [']']
  | .jobj [] => [lbrace, rbrace]
  | .jobj (f :: fs) =>
    lbrace :: nlIndent (level + 1) ++ dumpObjItems (level + 1) f fs ++ nlIndent level ++ [rbrace]
termination_by v => sizeOf v
decreasing_by all_goals (simp; try omega)

/-- The comma-separated items of a non-empty array. -/
def dumpArrItems (level : Nat) (x : JVal) : List JVal → PyStr
  | [] => dumpJVal level x
  | y :: ys => dumpJVal level x ++ ',' :: nlIndent level ++ dumpArrItems level y ys
termination_by xs => sizeOf x + sizeOf xs
decreasing_by all_goals (simp; try omega)

/-- The comma-separated `"key": value` items of a non-empty object. -/
def dumpObjItems (level : Nat) (f : PyStr × JVal) : List (PyStr × JVal) → PyStr
  | [] => jstrLit f.1 ++ ':' :: ' ' :: dumpJVal level f.2
  | g :: gs =>
    jstrLit f.1 ++ ':' :: ' ' :: dumpJVal level f.2 ++ ',' :: nlIndent level ++ dumpObjItems level g gs
termination_by gs => sizeOf f + sizeOf gs
decreasing_by all_goals (rcases f with ⟨k, v⟩; simp; try omega)

end

/-- `json.dumps(v, indent=2)` as used throughout src/code.py. -/
def pyDumps2 (v : JVal) : PyStr := dumpJVal 0 v

/-!
## The Settings Store (load_settings / save_settings, src/code.py lines 124-148)

The settings record the store reads and writes is a flat JSON object with
string values (`api_key`, `base_url`, `model`, `accent_color`,
`system_prompt`), embedded as an ordered association list.  The serialized
form below is exactly `json.dumps(record, indent=2)` specialized to that
shape, and the parser accepts exactly the JSON documents denoting such
records (on anything else `load_settings`'s `except` branch, or a record the
store never writes, is reached — both are outside every claim about the
store).
-/

/-- One `"key": "value"` member as serialized by `json.dump(..., indent=2)`. -/
def settingsMemberStr (k v : PyStr) : PyStr := jstrLit k ++ ':' :: ' ' :: jstrLit v

/-- The member lines of a non-empty record, two-space indented and separated
by `",\n"`. -/
def settingsMembersStr : List (PyStr × PyStr) → PyStr
  | [] => []
  | [kv] => ' ' :: ' ' :: settingsMemberStr kv.1 kv.2
  | kv :: rest => (' ' :: ' ' :: settingsMemberStr kv.1 kv.2) ++ ',' :: '\n' :: settingsMembersStr rest

/-- `json.dump(data, f, indent=2)` for a flat string-valued record. -/
def dumpSettingsJson : List (PyStr × PyStr) → PyStr
  | [] => [lbrace, rbrace]
  | fields => lbrace :: '\n' :: settingsMembersStr fields ++ '\n' :: [rbrace]

/-- A flat string-valued record as a `JVal` (to connect the settings
serializer to the generic `pyDumps2`). -/
def settingsToJVal (fields : List (PyStr × PyStr)) : JVal :=
  .jobj (fields.map (fun kv => (kv.1, .jstr kv.2)))

/-- JSON whitespace accepted by `json.load`. -/
def isJsonWs (c : Char) : Bool := c = ' ' || c = '\t' || c = '\n' || c = '\r'

/-- Skip JSON whitespace. -/
def skipWs (s : PyStr) : PyStr := s.dropWhile isJsonWs

/-- Value of one hex digit (`json.load` accepts both cases). -/
def parseHexDigit (c : Char) : Option Nat :=
  let n := c.toNat
  if 48 ≤ n && n ≤ 57 then some (n - 48)
  else if 97 ≤ n && n ≤ 102 then some (n - 87)
  else if 65 ≤ n && n ≤ 70 then some (n - 55)
  else none

/-- The value of four hex digits (as in `\uXXXX`), or `none` if any is not a
hex digit. -/
def hex4 (a b c d : Char) : Option Nat :=
  match parseHexDigit a, parseHexDigit b, parseHexDigit c, parseHexDigit d with
  | some d1, some d2, some d3, some d4 => some (((d1 * 16 + d2) * 16 + d3) * 16 + d4)
  | _, _, _, _ => none

/-- The one-character JSON escapes accepted by `json.loads`. -/
def simpleEscape (e : Char) : Option Char :=
  if e = '"' then some '"'
  else if e = '\\' then some '\\'
  else if e = '/' then some '/'
  else if e = 'b' then some (Char.ofNat 8)
  else if e = 'f' then some (Char.ofNat 12)
  else if e = 'n' then some '\n'
  else if e = 'r' then some '\r'
  else if e = 't' then some '\t'
  else none

/-- Prepend a decoded character to a string-parse result. -/
def consFst (c : Char) : Option (PyStr × PyStr) → Option (PyStr × PyStr)
  | some (s, rem) => some (c :: s, rem)
  | none => none

/-- Case analysis on an `Option` (the parser's plumbing). -/
def onSome {α β : Type} (z : β) (f : α → β) : Option α → β
  | some a => f a
  | none => z

mutual

/-- Parse the body of a JSON string literal after its opening quote, decoding
escapes as Python's `json.loads` does in strict mode: raw control characters
are rejected, a closing quote ends the string, and a backslash defers to the
escape rules of `parseJEscape`. -/
def parseJStrBody : PyStr → Option (PyStr × PyStr)
  | [] => none
  | c :: rest =>
    if c = '"' then some ([], rest)
    else if c = '\\' then parseJEscape rest
    else if c.toNat < 32 then none
    else consFst c (parseJStrBody rest)
termination_by structural s => s

/-- Decode one escape after a backslash: `\uXXXX` yields a BMP scalar, with a
high surrogate requiring a following low surrogate (`parseJLowSur`); the
one-character escapes go through `simpleEscape`.  A lone surrogate, which has
no `Char` representation, is rejected (Python would keep it; no store
round-trip ever produces one). -/
def parseJEscape : PyStr → Option (PyStr × PyStr)
  | [] => none
  | e :: rest2 =>
    if e = 'u' then
      match rest2 with
      | a :: b :: d :: f :: rest6 =>
        onSome none (fun n =>
          if 55296 ≤ n ∧ n < 56320 then parseJLowSur n rest6
          else if 56320 ≤ n ∧ n < 57344 then none
          else consFst (Char.ofNat n) (parseJStrBody rest6)) (hex4 a b d f)
      | _ => none
    else onSome none (fun d => consFst d (parseJStrBody rest2)) (simpleEscape e)
termination_by structural s => s

/-- After a high surrogate `n`, require `\uXXXX` with a low surrogate and
combine the pair into one scalar. -/
def parseJLowSur (n : Nat) : PyStr → Option (PyStr × PyStr)
  | b1 :: u1 :: g1 :: g2 :: g3 :: g4 :: rest12 =>
    if b1 = '\\' ∧ u1 = 'u' then
      onSome none (fun m =>
        if 56320 ≤ m ∧ m < 57344 then
          consFst (Char.ofNat (65536 + (n - 55296) * 1024 + (m - 56320))) (parseJStrBody rest12)
        else none) (hex4 g1 g2 g3 g4)
    else none
  | _ => none
termination_by structural s => s

end

/-- Parse one `"key": "value"` member (leading whitespace allowed). -/
def parseSettingsEntry (s : PyStr) : Option ((PyStr × PyStr) × PyStr) :=
  match skipWs s with
  | [] => none
  | c :: r1 =>
    if c = '"' then
      onSome none (fun kr =>
        (match skipWs kr.2 with
         | [] => none
         | c2 :: r3 =>
           if c2 = ':' then
             (match skipWs r3 with
              | [] => none
              | c3 :: r4 =>
                if c3 = '"' then
                  onSome none (fun vr => some ((kr.1, vr.1), vr.2)) (parseJStrBody r4)
                else none)
           else none))
        (parseJStrBody r1)
    else none

/-- Parse the members of a non-empty JSON object up to and including the
closing brace.  `fuel` bounds the member count; callers pass the text length,
which suffices since every member consumes characters. -/
def parseSettingsMembers : Nat → PyStr → Option (List (PyStr × PyStr) × PyStr)
  | 0, _ => none
  | fuel + 1, s =>
    onSome none (fun er =>
      (match skipWs er.2 with
       | [] => none
       | c :: r2 =>
         if c = ',' then
           onSome none (fun mr => some (er.1 :: mr.1, mr.2)) (parseSettingsMembers fuel r2)
         else if c = rbrace then some ([er.1], r2)
         else none))
      (parseSettingsEntry s)

/-- Parse a complete JSON document denoting a flat string-valued record:
the embedding of `json.load` on the documents the Settings Store itself
writes (and their whitespace variants). -/
def parseSettingsText (s : PyStr) : Option (List (PyStr × PyStr)) :=
  match skipWs s with
  | [] => none
  | c :: r1 =>
    if c = lbrace then
      (match skipWs r1 with
       | [] => none
       | d :: r2 =>
         if d = rbrace then (if skipWs r2 = [] then some [] else none)
         else
           onSome none (fun pr => if skipWs pr.2 = [] then some pr.1 else none)
             (parseSettingsMembers s.length (d :: r2)))
    else none

/-- The states the settings file can be in when `load_settings` runs. -/
inductive ConfigFile where
  | absent
  | unreadable
  | stored (text : PyStr)
  deriving Repr, DecidableEq

/-- `load_settings` (src/code.py lines 131-139): a missing file yields `{}`
without reading; a read or parse failure is caught by the bare `except` and
yields `{}`; otherwise the parsed record is returned. -/
def load_settings : ConfigFile → List (PyStr × PyStr)
  | .absent => []
  | .unreadable => []
  | .stored text => (parseSettingsText text).getD []

/-- `save_settings` (src/code.py lines 142-148): serialize the record with
`json.dump(data, f, indent=2)`, overwriting the file.  (A write failure is
swallowed and leaves the previous disk state; the round-trip claim concerns
the successful write.) -/
def save_settings (data : List (PyStr × PyStr)) : ConfigFile :=
  .stored (dumpSettingsJson data)

/-!
## Chat-completion response extraction (send_chat_completion, src/code.py
lines 1224-1239)
-/

/-- The `"choices"` key. -/
def kChoices : PyStr := "choices".toList

/-- The `"message"` key. -/
def kMessage : PyStr := "message".toList

/-- The `"content"` key. -/
def kContent : PyStr := "content".toList

/-- The `"text"` key. -/
def kTextKey : PyStr := "text".toList

/-- Python `dict.get` on an embedded JSON object. -/
def jGet (fields : List (PyStr × JVal)) (key : PyStr) : Option JVal :=
  (fields.find? (fun kv => kv.1 == key)).map Prod.snd

/-- Python truthiness of a JSON value. -/
def jTruthy : JVal → Bool
  | .jnull => false
  | .jbool b => b
  | .jint n => n != 0
  | .jstr s => !s.isEmpty
  | .jarr items => !items.isEmpty
  | .jobj fields => !fields.isEmpty

/-- Exception kind raised by `.get` on a non-dict. -/
def attrError : PyStr := "AttributeError".toList

/-- Exception kind raised by indexing a non-subscriptable value. -/
def typeError : PyStr := "TypeError".toList

/-- Exception kind raised by `d[0]` on a dict without key `0`. -/
def keyError : PyStr := "KeyError".toList

/-- `choices = data.get("choices") or []` (src/code.py line 1224): defined
only when `data` is a dict — `.get` on anything else raises
`AttributeError`; an absent or falsy member becomes `[]`. -/
def choicesAfterOr (data : JVal) : Option JVal :=
  match data with
  | .jobj fields =>
    some (match jGet fields kChoices with
          | some c => if jTruthy c then c else .jarr []
          | none => .jarr [])
  | _ => none

/-- The `content` extraction from `first = choices[0]` (src/code.py lines
1230-1236): `first["message"].get("content")` when `message` is a dict
member, else `first["text"]` when that member is a string, else `None`. -/
def contentOfFirst (first : JVal) : Option JVal :=
  match first with
  | .jobj ff =>
    match jGet ff kMessage with
    | some (.jobj mf) => jGet mf kContent
    | _ =>
      match jGet ff kTextKey with
      | some (.jstr t) => some (.jstr t)
      | _ => none
  | _ => none

/-- The response handling of `send_chat_completion` after a successful HTTP
call (src/code.py lines 1224-1239): the value the function returns, or the
kind of exception Python raises (`choices[0]` on a nonempty string yields its
one-character first element; on a dict, number or `True` it raises). -/
def extractChatContent (data : JVal) : Except PyStr JVal :=
  match choicesAfterOr data with
  | none => .error attrError
  | some choices =>
    if !jTruthy choices then .ok (.jstr (pyDumps2 data))
    else
      match choices with
      | .jarr (first :: _) =>
        (match contentOfFirst first with
         | some content => if jTruthy content then .ok content else .ok (.jstr (pyDumps2 data))
         | none => .ok (.jstr (pyDumps2 data)))
      | .jstr (c :: _) =>
        (match contentOfFirst (.jstr [c]) with
         | some content => if jTruthy content then .ok content else .ok (.jstr (pyDumps2 data))
         | none => .ok (.jstr (pyDumps2 data)))
      | .jobj _ => .error keyError
      | .jarr [] => .ok (.jstr (pyDumps2 data))
      | .jstr [] => .ok (.jstr (pyDumps2 data))
      | _ => .error typeError

/-- `choices[0]` where Python can index without raising. -/
def choicesFirst (data : JVal) : Option JVal :=
  match choicesAfterOr data with
  | some (.jarr (x :: _)) => some x
  | some (.jstr (c :: _)) => some (.jstr [c])
  | _ => none

/-- A choice element carries a `message.content` member. -/
def msgContentPresent (first : JVal) : Bool :=
  match first with
  | .jobj ff =>
    (match jGet ff kMessage with
     | some (.jobj mf) => (jGet mf kContent).isSome
     | _ => false)
  | _ => false

/-- A choice element carries a string `text` member. -/
def textMemberPresent (first : JVal) : Bool :=
  match first with
  | .jobj ff =>
    (match jGet ff kTextKey with
     | some (.jstr _) => true
     | _ => false)
  | _ => false

/-- The response contains a `choices[0].message.content` member. -/
def hasMsgContent (data : JVal) : Bool :=
  match choicesFirst data with
  | some f => msgContentPresent f
  | none => false

/-- The response contains a string `choices[0].text` member. -/
def hasTextMember (data : JVal) : Bool :=
  match choicesFirst data with
  | some f => textMemberPresent f
  | none => false

/-- `data` is a dict whose effective `choices` value is indexed without
raising: an array or a string (including the `[]` default). -/
def choicesIndexable (data : JVal) : Bool :=
  match choicesAfterOr data with
  | some (.jarr _) => true
  | some (.jstr _) => true
  | _ => false

/-!
# Theorems

Helper lemmas first, then one theorem per claim (with witnesses and
counterexamples where required).
-/

lemma visibleModels_empty_term (C : List PyStr) : visibleModels C [] = C := by
  simp [visibleModels, modelFilterFunc]

lemma splitBuckets_eq_filters (t : PyStr) (l : List PyStr) :
    splitBuckets t l =
      (l.filter (isExactMatch t), l.filter (isStartsMatch t), l.filter (isContainMatch t)) := by
  induction l with
  | nil => simp [splitBuckets]
  | cons x xs ih =>
    by_cases h1 : pyLower x = t
    · simp [splitBuckets, ih, h1, isExactMatch, isStartsMatch, isContainMatch]
    · by_cases h2 : startsWithL (pyLower x) t
      · simp [splitBuckets, ih, h1, h2, isExactMatch, isStartsMatch, isContainMatch]
      · simp [splitBuckets, ih, h1, h2, isExactMatch, isStartsMatch, isContainMatch]

lemma filter_three_perm (p q : PyStr → Bool) (l : List PyStr) :
    (l.filter p ++ (l.filter (fun x => !p x && q x) ++ l.filter (fun x => !p x && !q x))).Perm l := by
  induction l with
  | nil => simp
  | cons x xs ih =>
    by_cases hp : p x
    · simpa [hp] using ih.cons x
    · by_cases hq : q x
      · have h1 : (x :: xs).filter p = xs.filter p := by simp [hp]
        have h2 : (x :: xs).filter (fun y => !p y && q y) = x :: xs.filter (fun y => !p y && q y) := by
          simp [hp, hq]
        have h3 : (x :: xs).filter (fun y => !p y && !q y) = xs.filter (fun y => !p y && !q y) := by
          simp [hp, hq]
        rw [h1, h2, h3]
        exact List.perm_middle.trans (ih.cons x)
      · have h1 : (x :: xs).filter p = xs.filter p := by simp [hp]
        have h2 : (x :: xs).filter (fun y => !p y && q y) = xs.filter (fun y => !p y && q y) := by
          simp [hp, hq]
        have h3 : (x :: xs).filter (fun y => !p y && !q y) = x :: xs.filter (fun y => !p y && !q y) := by
          simp [hp, hq]
        rw [h1, h2, h3]
        have step1 : (xs.filter p ++ (xs.filter (fun y => !p y && q y) ++
              x :: xs.filter (fun y => !p y && !q y))).Perm
            (xs.filter p ++ (x :: (xs.filter (fun y => !p y && q y) ++
              xs.filter (fun y => !p y && !q y)))) :=
          List.Perm.append_left (xs.filter p) List.perm_middle
        exact (step1.trans List.perm_middle).trans (ih.cons x)

/-- C9: for every catalog, projecting with the empty search term is the
identity — every catalog entry is visible and the display keeps the original
catalog order. -/
theorem projection_empty_term_identity (C : List PyStr) :
    populateDisplayModel C [] = C ∧ visibleModels C [] = C :=
  ⟨by simp [populateDisplayModel, visibleModels_empty_term], visibleModels_empty_term C⟩

/-- C2: for every catalog `C` and non-empty search term `t`, the display
projection is a permutation of the visible subset of `C`, laid out as the
exact-match bucket, then the starts-with bucket, then the remaining
contains-matches, each bucket a filter of the visible list (hence preserving
catalog order); and the concrete scenario from the spec. -/
theorem projection_perm_and_buckets :
    (∀ (C : List PyStr) (t : PyStr), t ≠ [] →
      (populateDisplayModel C t).Perm (visibleModels C t) ∧
      populateDisplayModel C t =
        (visibleModels C t).filter (isExactMatch t) ++
          ((visibleModels C t).filter (isStartsMatch t) ++
            (visibleModels C t).filter (isContainMatch t))) ∧
    populateDisplayModel ["gpt-4".toList, "gpt-4-mini".toList, "gpt-3.5".toList] "gpt-4".toList
      = ["gpt-4".toList, "gpt-4-mini".toList] := by
  constructor
  · intro C t ht
    have hdef : populateDisplayModel C t =
        (visibleModels C t).filter (isExactMatch t) ++
          ((visibleModels C t).filter (isStartsMatch t) ++
            (visibleModels C t).filter (isContainMatch t)) := by
      simp [populateDisplayModel, ht, splitBuckets_eq_filters, List.append_assoc]
    refine ⟨?_, hdef⟩
    rw [hdef]
    have h := filter_three_perm (isExactMatch t) (fun i => startsWithL (pyLower i) t) (visibleModels C t)
    exact h
  · decide

/-- C2 witness: the universally quantified part applied at the scenario
catalog and term. -/
theorem projection_perm_and_buckets_witness :
    (populateDisplayModel ["gpt-4".toList, "gpt-4-mini".toList, "gpt-3.5".toList] "gpt-4".toList).Perm
      (visibleModels ["gpt-4".toList, "gpt-4-mini".toList, "gpt-3.5".toList] "gpt-4".toList) :=
  (projection_perm_and_buckets.1 ["gpt-4".toList, "gpt-4-mini".toList, "gpt-3.5".toList]
    "gpt-4".toList (by decide)).1

lemma dedupeGo_sublist : ∀ (l seen : List PyStr), (dedupeGo seen l).Sublist l
  | [], _ => by simp [dedupeGo]
  | m :: rest, seen => by
    by_cases h : m ∈ seen
    · simp only [dedupeGo, if_pos h]
      exact (dedupeGo_sublist rest seen).cons m
    · simp only [dedupeGo, if_neg h]
      exact (dedupeGo_sublist rest (m :: seen)).cons₂ m

lemma mem_dedupeGo : ∀ (l seen : List PyStr) (x : PyStr),
    x ∈ dedupeGo seen l ↔ x ∈ l ∧ x ∉ seen
  | [], seen, x => by simp [dedupeGo]
  | m :: rest, seen, x => by
    by_cases h : m ∈ seen
    · simp only [dedupeGo, if_pos h, mem_dedupeGo rest seen x, List.mem_cons]
      constructor
      · rintro ⟨hx, hns⟩; exact ⟨Or.inr hx, hns⟩
      · rintro ⟨hx | hx, hns⟩
        · exact absurd (hx ▸ h) hns
        · exact ⟨hx, hns⟩
    · simp only [dedupeGo, if_neg h, List.mem_cons, mem_dedupeGo rest (m :: seen) x]
      constructor
      · rintro (hx | ⟨hx, hns⟩)
        · subst hx; exact ⟨Or.inl rfl, h⟩
        · simp only [List.mem_cons, not_or] at hns
          exact ⟨Or.inr hx, hns.2⟩
      · rintro ⟨hx | hx, hns⟩
        · exact Or.inl hx
        · by_cases hxm : x = m
          · exact Or.inl hxm
          · exact Or.inr ⟨hx, by simp [List.mem_cons, hxm, hns]⟩

lemma dedupeGo_nodup : ∀ (l seen : List PyStr), (dedupeGo seen l).Nodup
  | [], _ => by simp [dedupeGo]
  | m :: rest, seen => by
    by_cases h : m ∈ seen
    · simp only [dedupeGo, if_pos h]
      exact dedupeGo_nodup rest seen
    · simp only [dedupeGo, if_neg h, List.nodup_cons]
      refine ⟨fun hmem => ?_, dedupeGo_nodup rest (m :: seen)⟩
      exact ((mem_dedupeGo rest (m :: seen) m).mp hmem).2 (List.mem_cons_self m seen)

lemma dedupeGo_congr : ∀ (l seen₁ seen₂ : List PyStr),
    (∀ a, a ∈ seen₁ ↔ a ∈ seen₂) → dedupeGo seen₁ l = dedupeGo seen₂ l
  | [], _, _, _ => rfl
  | m :: rest, seen₁, seen₂, h => by
    by_cases hm : m ∈ seen₁
    · simp only [dedupeGo, if_pos hm, if_pos ((h m).mp hm)]
      exact dedupeGo_congr rest seen₁ seen₂ h
    · simp only [dedupeGo, if_neg hm, if_neg (fun hx => hm ((h m).mpr hx))]
      refine congrArg (m :: ·) (dedupeGo_congr rest (m :: seen₁) (m :: seen₂) ?_)
      intro a
      simp only [List.mem_cons, h a]

lemma dedupeGo_cons_seen : ∀ (l : List PyStr) (x : PyStr) (seen : List PyStr),
    dedupeGo (x :: seen) l = dedupeGo seen (l.filter (fun y => y ≠ x))
  | [], _, _ => by simp [dedupeGo]
  | m :: rest, x, seen => by
    by_cases hmx : m = x
    · subst hmx
      have hmem : m ∈ m :: seen := List.mem_cons_self m seen
      rw [List.filter_cons]
      simp only [dedupeGo, if_pos hmem]
      simp only [ne_eq, not_true_eq_false, decide_False, Bool.false_eq_true, if_neg,
        not_false_eq_true]
      exact dedupeGo_cons_seen rest m seen
    · have hkeep : (m :: rest).filter (fun y => y ≠ x) = m :: rest.filter (fun y => y ≠ x) := by
        simp [List.filter_cons, hmx]
      rw [hkeep]
      by_cases hms : m ∈ seen
      · have hmem : m ∈ x :: seen := List.mem_cons_of_mem x hms
        simp only [dedupeGo, if_pos hmem, if_pos hms]
        exact dedupeGo_cons_seen rest x seen
      · have hmem : m ∉ x :: seen := by simp [List.mem_cons, hmx, hms]
        simp only [dedupeGo, if_neg hmem, if_neg hms]
        refine congrArg (m :: ·) ?_
        have h1 : dedupeGo (m :: x :: seen) rest = dedupeGo (x :: m :: seen) rest :=
          dedupeGo_congr rest (m :: x :: seen) (x :: m :: seen)
            (by intro a; simp only [List.mem_cons]; tauto)
        rw [h1, dedupeGo_cons_seen rest x (m :: seen)]

/-- C7: the deduplication step of `fetch_models` returns the subsequence of
first occurrences: the result has no duplicates, is a subsequence of the
input (so first-seen order is preserved), keeps exactly the input's elements,
and peels off the head followed by the dedup of the tail with all further
copies of the head removed. -/
theorem dedupe_first_occurrences :
    (∀ l : List PyStr, (dedupe l).Nodup ∧ (dedupe l).Sublist l ∧ (∀ x, x ∈ dedupe l ↔ x ∈ l)) ∧
    (∀ (x : PyStr) (t : List PyStr), dedupe (x :: t) = x :: dedupe (t.filter (fun y => y ≠ x))) := by
  constructor
  · intro l
    refine ⟨dedupeGo_nodup l [], dedupeGo_sublist l [], fun x => ?_⟩
    rw [dedupe, mem_dedupeGo l [] x]
    simp
  · intro x t
    show dedupeGo [] (x :: t) = _
    simp only [dedupeGo, List.not_mem_nil, if_neg]
    rw [dedupeGo_cons_seen t x []]
    rfl

/-- C3 counterexample: catalog `["a", "b"]` with `"a"` selected; typing the
search text `"b"` filters the display to `["b"]`, where `"a"` no longer
occurs — yet the handler of src/code.py sets the selection to the middle
index 0, i.e. to the unrelated value `"b"`, instead of clearing it. -/
theorem search_change_not_cleared_counterexample :
    chatValue ⟨["a".toList, "b".toList], ["a".toList, "b".toList], 0, -1, [], [], none, false⟩
        = some "a".toList ∧
    (onModelSearchChanged
        ⟨["a".toList, "b".toList], ["a".toList, "b".toList], 0, -1, [], [], none, false⟩
        "b".toList).displayModel = ["b".toList] ∧
    "a".toList ∉ (onModelSearchChanged
        ⟨["a".toList, "b".toList], ["a".toList, "b".toList], 0, -1, [], [], none, false⟩
        "b".toList).displayModel ∧
    (onModelSearchChanged
        ⟨["a".toList, "b".toList], ["a".toList, "b".toList], 0, -1, [], [], none, false⟩
        "b".toList).chatActive = 0 ∧
    chatValue (onModelSearchChanged
        ⟨["a".toList, "b".toList], ["a".toList, "b".toList], 0, -1, [], [], none, false⟩
        "b".toList) = some "b".toList := by decide

/-- C3 (amended): in src/code.py the search handler never preserves or clears
the selection based on the old value: it selects the middle index `len // 2`
of the freshly filtered display list whenever that list is non-empty — also
when the previously selected identifier no longer occurs — and clears the
selection (active `-1`, no selected value) only when the filtered list is
empty.  The beta variant (src/code_beta_123.py) clears unconditionally. -/
theorem search_selection_policy :
    (∀ (st : UIState) (entry : PyStr), st.updatingCombo = false →
      ((onModelSearchChanged st entry).displayModel ≠ [] →
        (onModelSearchChanged st entry).chatActive =
          (((onModelSearchChanged st entry).displayModel.length / 2 : Nat) : Int)) ∧
      ((onModelSearchChanged st entry).displayModel = [] →
        (onModelSearchChanged st entry).chatActive = -1 ∧
        chatValue (onModelSearchChanged st entry) = none)) ∧
    (∀ (st : UIState) (entry : PyStr),
      (onModelSearchChangedBeta st entry).chatActive = -1 ∧
      chatValue (onModelSearchChangedBeta st entry) = none) := by
  constructor
  · intro st entry hu
    constructor
    · intro hne
      simp only [onModelSearchChanged, hu, Bool.false_eq_true, if_neg, not_false_eq_true] at hne ⊢
      have hlen : 0 < (populateDisplayModel st.storeSettings (pyLower (pyStrip entry))).length :=
        List.length_pos.mpr hne
      simp [hlen]
    · intro hemp
      simp only [onModelSearchChanged, hu, Bool.false_eq_true, if_neg, not_false_eq_true] at hemp ⊢
      constructor
      · simp [hemp]
      · simp [chatValue, rowAt, hemp]
  · intro st entry
    exact ⟨rfl, by simp [chatValue, onModelSearchChangedBeta, rowAt]⟩

/-- C3 witness: the amended theorem applied at a concrete state and search
text. -/
theorem search_selection_policy_witness :
    (onModelSearchChanged
        ⟨["a".toList, "b".toList], ["a".toList, "b".toList], 0, -1, [], [], none, false⟩
        "b".toList).chatActive =
      (((onModelSearchChanged
        ⟨["a".toList, "b".toList], ["a".toList, "b".toList], 0, -1, [], [], none, false⟩
        "b".toList).displayModel.length / 2 : Nat) : Int) :=
  ((search_selection_policy.1
      ⟨["a".toList, "b".toList], ["a".toList, "b".toList], 0, -1, [], [], none, false⟩
      "b".toList rfl).1 (by decide))

/-- C4 counterexample: with the base-URL entry empty (stripped text `""`),
`on_save_clicked` stores `base_url = ""`, which does not end with `"/"` —
the trailing-separator invariant fails for that saved record. -/
theorem base_url_empty_counterexample :
    savedBaseUrl [] = [] ∧ endsWithL (savedBaseUrl []) ['/'] = false ∧
    (onSaveStoreBaseUrl ⟨none, none⟩ []).base_url = some [] := by decide

/-- C4 (amended): for every base-URL entry text whose stripped form is
non-empty, the `base_url` stored by `on_save_clicked` ends with `"/"`; when
the stripped text is empty, the empty string is stored unchanged (no
separator is appended). -/
theorem base_url_trailing_slash :
    ∀ (s : SettingsRecord) (text : PyStr), pyStrip text ≠ [] →
      (onSaveStoreBaseUrl s text).base_url = some (savedBaseUrl text) ∧
      endsWithL (savedBaseUrl text) ['/'] = true := by
  intro s text h
  refine ⟨rfl, ?_⟩
  unfold savedBaseUrl
  by_cases he : endsWithL (pyStrip text) ['/'] = true
  · rw [if_neg]
    · exact he
    · simp [he]
  · rw [if_pos]
    · unfold endsWithL
      rw [List.reverse_append]
      simp [startsWithL]
    · simp [h, Bool.eq_false_iff.mpr he]

/-- C4 witness: the amended theorem applied at a concrete entry text without
a trailing separator. -/
theorem base_url_trailing_slash_witness :
    (onSaveStoreBaseUrl ⟨none, none⟩ "http://localhost:11434".toList).base_url
        = some (savedBaseUrl "http://localhost:11434".toList) ∧
      endsWithL (savedBaseUrl "http://localhost:11434".toList) ['/'] = true :=
  base_url_trailing_slash ⟨none, none⟩ "http://localhost:11434".toList (by decide)

/-- C10: `get_selected_model` consults only the settings picker's entry text
(the chat-picker branch is dead code after the unconditional `return ""`): in
every UI state whose entry text strips to empty — whatever the chat picker's
selection — it returns the empty string, and `on_send_clicked` takes the
"Please select or enter a model" validation path without issuing a request. -/
theorem get_selected_model_ignores_chat_picker :
    ∀ (store display : List PyStr) (ci si : Int) (entry search : PyStr)
      (m : Option PyStr) (u : Bool),
      pyStrip entry = [] →
      getSelectedModel ⟨store, display, ci, si, entry, search, m, u⟩ = [] ∧
      onSendClickedGate ⟨store, display, ci, si, entry, search, m, u⟩
        = SendOutcome.modelValidationError := by
  intro store display ci si entry search m u h
  refine ⟨by simp [getSelectedModel, h], ?_⟩
  simp [onSendClickedGate, getSelectedModel, h]

/-- C10 witness: applied at a state whose chat picker has a valid selection
(`display_model = ["m"]`, active index 0) while the settings entry is
whitespace. -/
theorem get_selected_model_ignores_chat_picker_witness :
    getSelectedModel ⟨[], ["m".toList], 0, -1, [' '], [], none, false⟩ = [] ∧
    onSendClickedGate ⟨[], ["m".toList], 0, -1, [' '], [], none, false⟩
      = SendOutcome.modelValidationError :=
  get_selected_model_ignores_chat_picker [] ["m".toList] 0 (-1) [' '] [] none false (by decide)

lemma rowAt_nonneg (rows : List PyStr) (i : Int) (v : PyStr) (h : rowAt rows i = some v) :
    0 ≤ i := by
  unfold rowAt at h
  by_cases hi : 0 ≤ i
  · exact hi
  · simp [hi] at h

/-- C1 counterexample: settings store `["a", "b"]`, display filtered to
`["b"]`.  A user-driven selection of index 0 in the settings picker (value
`"a"`) makes the synchronizer copy the *index* 0 to the chat picker, whose
row 0 is `"b"`: once settled the two pickers disagree (`"b"` vs `"a"`),
refuting the claim that the other picker's value equals the changed one's. -/
theorem sync_value_mismatch_counterexample :
    chatValue (userSelectSettings
        ⟨["a".toList, "b".toList], ["b".toList], -1, -1, [], "b".toList, none, false⟩ 0)
      = some "b".toList ∧
    (userSelectSettings
        ⟨["a".toList, "b".toList], ["b".toList], -1, -1, [], "b".toList, none, false⟩ 0).settingsEntryText
      = "a".toList ∧
    settingsRowValue (userSelectSettings
        ⟨["a".toList, "b".toList], ["b".toList], -1, -1, [], "b".toList, none, false⟩ 0)
      = some "a".toList ∧
    (userSelectSettings
        ⟨["a".toList, "b".toList], ["b".toList], -1, -1, [], "b".toList, none, false⟩ 0).settingsModel
      = some "a".toList ∧
    chatValue (userSelectSettings
        ⟨["a".toList, "b".toList], ["b".toList], -1, -1, [], "b".toList, none, false⟩ 0)
      ≠ some (userSelectSettings
        ⟨["a".toList, "b".toList], ["b".toList], -1, -1, [], "b".toList, none, false⟩ 0).settingsEntryText := by
  decide

/-- C1 (amended): the synchronizer copies the active *index*, not the value.
After a user-driven selection of an in-range index `i` in either picker
(with the re-entrancy guard clear), both pickers settle on active index `i`
and the settings record's `model` field equals the changed picker's selected
value; the other picker shows its own store's row `i` — which, in the
settings → chat direction, equals the changed picker's value only when the
two row lists agree there (the chat → settings direction additionally
overwrites the settings entry text with the chat value). -/
theorem sync_copies_index_and_saves_value :
    (∀ (st : UIState) (i : Int) (v w : PyStr),
      st.updatingCombo = false →
      rowAt st.storeSettings i = some v → v ≠ [] →
      rowAt st.displayModel i = some w →
      (userSelectSettings st i).settingsActive = i ∧
      (userSelectSettings st i).chatActive = i ∧
      (userSelectSettings st i).settingsEntryText = v ∧
      settingsRowValue (userSelectSettings st i) = some v ∧
      chatValue (userSelectSettings st i) = some w ∧
      (userSelectSettings st i).settingsModel = some v) ∧
    (∀ (st : UIState) (i : Int) (v w : PyStr),
      st.updatingCombo = false →
      rowAt st.displayModel i = some w → w ≠ [] →
      rowAt st.storeSettings i = some v →
      (userSelectChat st i).chatActive = i ∧
      (userSelectChat st i).settingsActive = i ∧
      (userSelectChat st i).settingsEntryText = w ∧
      chatValue (userSelectChat st i) = some w ∧
      settingsRowValue (userSelectChat st i) = some v ∧
      (userSelectChat st i).settingsModel = some w) := by
  constructor
  · intro st i v w hu hv hvne hw
    have hi : 0 ≤ i := rowAt_nonneg _ _ _ hv
    simp [userSelectSettings, setActiveSettings, syncSettingsToChat, setActiveChat,
      saveLastModelSettings, chatValue, settingsRowValue, hu, hv, hw, hi, hvne]
  · intro st i v w hu hw hwne hv
    have hi : 0 ≤ i := rowAt_nonneg _ _ _ hw
    simp [userSelectChat, setActiveChat, syncChatToSettings, setActiveSettings,
      onComboModelChanged, saveLastModelChat, chatValue, settingsRowValue,
      hu, hv, hw, hi, hwne]

/-- C1 witness: the amended theorem applied at a state whose display list and
settings store agree, index 1. -/
theorem sync_copies_index_and_saves_value_witness :
    (userSelectSettings
        ⟨["a".toList, "b".toList], ["a".toList, "b".toList], -1, -1, [], [], none, false⟩ 1).settingsActive = 1 ∧
    (userSelectSettings
        ⟨["a".toList, "b".toList], ["a".toList, "b".toList], -1, -1, [], [], none, false⟩ 1).chatActive = 1 ∧
    (userSelectSettings
        ⟨["a".toList, "b".toList], ["a".toList, "b".toList], -1, -1, [], [], none, false⟩ 1).settingsEntryText = "b".toList ∧
    settingsRowValue (userSelectSettings
        ⟨["a".toList, "b".toList], ["a".toList, "b".toList], -1, -1, [], [], none, false⟩ 1) = some "b".toList ∧
    chatValue (userSelectSettings
        ⟨["a".toList, "b".toList], ["a".toList, "b".toList], -1, -1, [], [], none, false⟩ 1) = some "b".toList ∧
    (userSelectSettings
        ⟨["a".toList, "b".toList], ["a".toList, "b".toList], -1, -1, [], [], none, false⟩ 1).settingsModel = some "b".toList :=
  sync_copies_index_and_saves_value.1
    ⟨["a".toList, "b".toList], ["a".toList, "b".toList], -1, -1, [], [], none, false⟩
    1 "b".toList "b".toList rfl (by decide) (by decide) (by decide)

lemma contentOfFirst_eq_none (first : JVal)
    (h1 : msgContentPresent first = false)
    (h2 : textMemberPresent first = false) :
    contentOfFirst first = none := by
  cases first with
  | jobj ff =>
    unfold msgContentPresent at h1
    unfold textMemberPresent at h2
    unfold contentOfFirst
    cases hm : jGet ff kMessage with
    | some mv =>
      cases mv with
      | jobj mf =>
        simp only [hm] at h1 ⊢
        exact Option.not_isSome_iff_eq_none.mp (by simp [h1])
      | jnull =>
        simp only [hm] at h2 ⊢
        cases ht : jGet ff kTextKey with
        | some tv => cases tv <;> simp_all
        | none => simp [ht]
      | jbool b =>
        simp only [hm] at h2 ⊢
        cases ht : jGet ff kTextKey with
        | some tv => cases tv <;> simp_all
        | none => simp [ht]
      | jint n =>
        simp only [hm] at h2 ⊢
        cases ht : jGet ff kTextKey with
        | some tv => cases tv <;> simp_all
        | none => simp [ht]
      | jstr s =>
        simp only [hm] at h2 ⊢
        cases ht : jGet ff kTextKey with
        | some tv => cases tv <;> simp_all
        | none => simp [ht]
      | jarr items =>
        simp only [hm] at h2 ⊢
        cases ht : jGet ff kTextKey with
        | some tv => cases tv <;> simp_all
        | none => simp [ht]
    | none =>
      simp only [hm] at h2 ⊢
      cases ht : jGet ff kTextKey with
      | some tv => cases tv <;> simp_all
      | none => simp [ht]
  | jnull => rfl
  | jbool b => rfl
  | jint n => rfl
  | jstr s => rfl
  | jarr items => rfl

/-- C8 counterexample: a response body that is a bare JSON array (e.g. `[]`)
contains neither `choices[0].message.content` nor `choices[0].text`, yet the
code does not return the pretty-printed body: `data.get("choices")` on a list
raises `AttributeError`, which the caller surfaces as an error bubble. -/
theorem chat_extraction_bare_array_counterexample :
    extractChatContent (.jarr []) = .error attrError ∧
    extractChatContent (.jarr []) ≠ .ok (.jstr (pyDumps2 (.jarr []))) :=
  ⟨rfl, fun h => Except.noConfusion h⟩

/-- C8 (amended): the two spec scenarios hold —
`{"choices":[{"message":{"content":"hi"}}]}` extracts `"hi"`, and
`{"choices":[]}` extracts the pretty-printed body — and the fallback is
general over response *objects* whose effective `choices` value can be
indexed (an array or string, including the default `[]`): containing neither
`choices[0].message.content` nor a string `choices[0].text`, the extracted
content is the pretty-printed full body.  (For a non-object body, or a truthy
non-indexable `choices`, the code raises instead — see the counterexample.) -/
theorem chat_extraction_scenarios :
    extractChatContent
        (.jobj [(kChoices, .jarr [.jobj [(kMessage, .jobj [(kContent, .jstr "hi".toList)])]])])
      = .ok (.jstr "hi".toList) ∧
    extractChatContent (.jobj [(kChoices, .jarr [])])
      = .ok (.jstr (pyDumps2 (.jobj [(kChoices, .jarr [])]))) ∧
    pyDumps2 (.jobj [(kChoices, .jarr [])]) = String.toList "\x7b\n  \"choices\": []\n\x7d" ∧
    (∀ data : JVal, choicesIndexable data = true → hasMsgContent data = false →
      hasTextMember data = false →
      extractChatContent data = .ok (.jstr (pyDumps2 data))) := by
  refine ⟨rfl, rfl, ?_, ?_⟩
  · simp [pyDumps2, dumpJVal, dumpObjItems, jstrLit, escapeString, escapeChar, nlIndent,
      lbrace, rbrace, kChoices]
  · intro data hidx hmsg htxt
    cases hco : choicesAfterOr data with
    | none => simp [choicesIndexable, hco] at hidx
    | some choices =>
      cases choices with
      | jarr items =>
        cases items with
        | nil => simp [extractChatContent, hco, jTruthy]
        | cons first _ =>
          have hcf : choicesFirst data = some first := by simp [choicesFirst, hco]
          simp only [hasMsgContent, hcf] at hmsg
          simp only [hasTextMember, hcf] at htxt
          have hnone := contentOfFirst_eq_none first hmsg htxt
          simp [extractChatContent, hco, jTruthy, hnone]
      | jstr chars =>
        cases chars with
        | nil => simp [extractChatContent, hco, jTruthy]
        | cons c _ =>
          have hnone := contentOfFirst_eq_none (.jstr [c]) rfl rfl
          simp [extractChatContent, hco, jTruthy, hnone]
      | jnull => simp [choicesIndexable, hco] at hidx
      | jbool b => simp [choicesIndexable, hco] at hidx
      | jint n => simp [choicesIndexable, hco] at hidx
      | jobj fields => simp [choicesIndexable, hco] at hidx

/-- C8 witness: the general fallback applied at the concrete object `{}` —
no `choices` member, hence the `[]` default, no content and no text path. -/
theorem chat_extraction_scenarios_witness :
    extractChatContent (.jobj []) = .ok (.jstr (pyDumps2 (.jobj []))) :=
  chat_extraction_scenarios.2.2.2 (.jobj []) rfl rfl rfl

lemma parseHexDigit_hexDigitChar (d : Nat) (h : d < 16) :
    parseHexDigit (hexDigitChar d) = some d := by
  interval_cases d <;> decide

lemma hex4_digits (n : Nat) (h : n < 65536) :
    ((n / 4096 % 16 * 16 + n / 256 % 16) * 16 + n / 16 % 16) * 16 + n % 16 = n := by
  omega

lemma char_ofNat_of_toNat (c : Char) (n : Nat) (h : c.toNat = n) : Char.ofNat n = c := by
  rw [← h, Char.ofNat_toNat]


lemma hex4_encode (n : Nat) (h : n < 65536) :
    hex4 (hexDigitChar (n / 4096 % 16)) (hexDigitChar (n / 256 % 16))
      (hexDigitChar (n / 16 % 16)) (hexDigitChar (n % 16)) = some n := by
  unfold hex4
  rw [parseHexDigit_hexDigitChar _ (Nat.mod_lt _ (by norm_num)),
     parseHexDigit_hexDigitChar _ (Nat.mod_lt _ (by norm_num)),
     parseHexDigit_hexDigitChar _ (Nat.mod_lt _ (by norm_num)),
     parseHexDigit_hexDigitChar _ (Nat.mod_lt _ (by norm_num))]
  norm_num
  omega

lemma onSome_some {α β : Type} (z : β) (f : α → β) (x : α) : onSome z f (some x) = f x := rfl

lemma parseJStrBody_quote (rest : PyStr) : parseJStrBody ('"' :: rest) = some ([], rest) := rfl

lemma parseJStrBody_backslash (rest : PyStr) :
    parseJStrBody ('\\' :: rest) = parseJEscape rest := rfl

lemma parseJStrBody_plain (c : Char) (rest : PyStr)
    (h1 : ¬c = '"') (h2 : ¬c = '\\') (h3 : ¬c.toNat < 32) :
    parseJStrBody (c :: rest) = consFst c (parseJStrBody rest) := by
  rw [parseJStrBody.eq_def]
  simp only [if_neg h1, if_neg h2, if_neg h3]

lemma parseJEscape_u (a b c d : Char) (r : PyStr) :
    parseJEscape ('u' :: a :: b :: c :: d :: r) =
      onSome none (fun n =>
        if 55296 ≤ n ∧ n < 56320 then parseJLowSur n r
        else if 56320 ≤ n ∧ n < 57344 then none
        else consFst (Char.ofNat n) (parseJStrBody r)) (hex4 a b c d) := rfl

lemma parseJEscape_simple (e : Char) (r : PyStr) (hu : ¬e = 'u') :
    parseJEscape (e :: r) =
      onSome none (fun d => consFst d (parseJStrBody r)) (simpleEscape e) := by
  rw [parseJEscape.eq_def]
  simp only [if_neg hu]

lemma parseJLowSur_pair (n : Nat) (g1 g2 g3 g4 : Char) (r : PyStr) :
    parseJLowSur n ('\\' :: 'u' :: g1 :: g2 :: g3 :: g4 :: r) =
      onSome none (fun m =>
        if 56320 ≤ m ∧ m < 57344 then
          consFst (Char.ofNat (65536 + (n - 55296) * 1024 + (m - 56320))) (parseJStrBody r)
        else none) (hex4 g1 g2 g3 g4) := by
  rw [parseJLowSur.eq_def]
  simp only []
  rw [if_pos (And.intro trivial trivial : True ∧ True)]

lemma parseJStrBody_uBMP (n : Nat) (t : PyStr) (hlt : n < 65536)
    (hA : ¬(55296 ≤ n ∧ n < 56320)) (hB : ¬(56320 ≤ n ∧ n < 57344)) :
    parseJStrBody ('\\' :: 'u' :: hexDigitChar (n / 4096 % 16) :: hexDigitChar (n / 256 % 16) ::
        hexDigitChar (n / 16 % 16) :: hexDigitChar (n % 16) :: t)
      = consFst (Char.ofNat n) (parseJStrBody t) := by
  rw [parseJStrBody_backslash, parseJEscape_u, hex4_encode n hlt, onSome_some]
  rw [if_neg hA, if_neg hB]

lemma parseJStrBody_uAstral (n : Nat) (t : PyStr) (hge : 65536 ≤ n) (hlt : n < 1114112) :
    parseJStrBody ('\\' :: 'u' :: hexDigitChar ((55296 + (n - 65536) / 1024) / 4096 % 16) ::
        hexDigitChar ((55296 + (n - 65536) / 1024) / 256 % 16) ::
        hexDigitChar ((55296 + (n - 65536) / 1024) / 16 % 16) ::
        hexDigitChar ((55296 + (n - 65536) / 1024) % 16) ::
        '\\' :: 'u' :: hexDigitChar ((56320 + (n - 65536) % 1024) / 4096 % 16) ::
        hexDigitChar ((56320 + (n - 65536) % 1024) / 256 % 16) ::
        hexDigitChar ((56320 + (n - 65536) % 1024) / 16 % 16) ::
        hexDigitChar ((56320 + (n - 65536) % 1024) % 16) :: t)
      = consFst (Char.ofNat n) (parseJStrBody t) := by
  have hhi : 55296 + (n - 65536) / 1024 < 65536 := by omega
  have hlo : 56320 + (n - 65536) % 1024 < 65536 := by
    have := Nat.mod_lt (n - 65536) (show 0 < 1024 by norm_num)
    omega
  rw [parseJStrBody_backslash, parseJEscape_u, hex4_encode _ hhi, onSome_some]
  rw [if_pos (And.intro (by omega) (by omega) :
    55296 ≤ 55296 + (n - 65536) / 1024 ∧ 55296 + (n - 65536) / 1024 < 56320)]
  rw [parseJLowSur_pair, hex4_encode _ hlo, onSome_some]
  rw [if_pos (And.intro (by omega) (by omega) :
    56320 ≤ 56320 + (n - 65536) % 1024 ∧ 56320 + (n - 65536) % 1024 < 57344)]
  have harith : 65536 + (55296 + (n - 65536) / 1024 - 55296) * 1024 +
      (56320 + (n - 65536) % 1024 - 56320) = n := by omega
  rw [harith]

lemma parseJStrBody_simpleEsc (e d : Char) (t : PyStr)
    (h : simpleEscape e = some d) (hu : ¬e = 'u') :
    parseJStrBody ('\\' :: e :: t) = consFst d (parseJStrBody t) := by
  rw [parseJStrBody_backslash, parseJEscape_simple e t hu, h, onSome_some]

lemma parseJStrBody_escapeChar (c : Char) (t : PyStr) :
    parseJStrBody (escapeChar c ++ t) = consFst c (parseJStrBody t) := by
  have hval : c.toNat < 55296 ∨ (57343 < c.toNat ∧ c.toNat < 1114112) := c.valid
  unfold escapeChar
  by_cases h1 : c = '"'
  · subst h1
    exact parseJStrBody_simpleEsc '"' '"' t (by decide) (by decide)
  · rw [if_neg h1]
    by_cases h2 : c = '\\'
    · subst h2
      exact parseJStrBody_simpleEsc '\\' '\\' t (by decide) (by decide)
    · rw [if_neg h2]
      by_cases h3 : c.toNat = 8
      · rw [if_pos h3, ← char_ofNat_of_toNat c 8 h3]
        exact parseJStrBody_simpleEsc 'b' (Char.ofNat 8) t (by decide) (by decide)
      · rw [if_neg h3]
        by_cases h4 : c.toNat = 9
        · rw [if_pos h4, ← char_ofNat_of_toNat c 9 h4]
          exact parseJStrBody_simpleEsc 't' (Char.ofNat 9) t (by decide) (by decide)
        · rw [if_neg h4]
          by_cases h5 : c.toNat = 10
          · rw [if_pos h5, ← char_ofNat_of_toNat c 10 h5]
            exact parseJStrBody_simpleEsc 'n' (Char.ofNat 10) t (by decide) (by decide)
          · rw [if_neg h5]
            by_cases h6 : c.toNat = 12
            · rw [if_pos h6, ← char_ofNat_of_toNat c 12 h6]
              exact parseJStrBody_simpleEsc 'f' (Char.ofNat 12) t (by decide) (by decide)
            · rw [if_neg h6]
              by_cases h7 : c.toNat = 13
              · rw [if_pos h7, ← char_ofNat_of_toNat c 13 h7]
                exact parseJStrBody_simpleEsc 'r' (Char.ofNat 13) t (by decide) (by decide)
              · rw [if_neg h7]
                by_cases h8 : 32 ≤ c.toNat ∧ c.toNat ≤ 126
                · rw [if_pos (by simp [h8.1, h8.2])]
                  show parseJStrBody (c :: t) = _
                  exact parseJStrBody_plain c t h1 h2 (by omega)
                · have h8' : ¬(decide (32 ≤ c.toNat) && decide (c.toNat ≤ 126)) = true := by
                    simp only [Bool.and_eq_true, decide_eq_true_eq]
                    exact h8
                  rw [if_neg h8']
                  by_cases h9 : c.toNat < 65536
                  · rw [if_pos h9]
                    have hA : ¬(55296 ≤ c.toNat ∧ c.toNat < 56320) := by omega
                    have hB : ¬(56320 ≤ c.toNat ∧ c.toNat < 57344) := by omega
                    calc parseJStrBody ('\\' :: 'u' :: encodeHex4 c.toNat ++ t)
                        = consFst (Char.ofNat c.toNat) (parseJStrBody t) :=
                          parseJStrBody_uBMP c.toNat t h9 hA hB
                      _ = consFst c (parseJStrBody t) := by
                          rw [char_ofNat_of_toNat c c.toNat rfl]
                  · rw [if_neg h9]
                    have h10 : 65536 ≤ c.toNat := by omega
                    have h11 : c.toNat < 1114112 := by omega
                    calc parseJStrBody (('\\' :: 'u' :: encodeHex4 (55296 + (c.toNat - 65536) / 1024)) ++
                          ('\\' :: 'u' :: encodeHex4 (56320 + (c.toNat - 65536) % 1024)) ++ t)
                        = consFst (Char.ofNat c.toNat) (parseJStrBody t) := by
                          simp only [encodeHex4, List.cons_append, List.nil_append, List.append_assoc]
                          exact parseJStrBody_uAstral c.toNat t h10 h11
                      _ = consFst c (parseJStrBody t) := by
                          rw [char_ofNat_of_toNat c c.toNat rfl]

lemma parseJStrBody_escapeString (s : PyStr) (rest : PyStr) :
    parseJStrBody (escapeString s ++ ('"' :: rest)) = some (s, rest) := by
  induction s with
  | nil =>
    show parseJStrBody (escapeString [] ++ ('"' :: rest)) = _
    rw [show escapeString [] = [] from rfl, List.nil_append, parseJStrBody_quote]
  | cons c cs ih =>
    have hexp : escapeString (c :: cs) ++ ('"' :: rest)
        = escapeChar c ++ (escapeString cs ++ ('"' :: rest)) := by
      simp [escapeString, List.append_assoc]
    rw [hexp, parseJStrBody_escapeChar, ih]
    rfl

lemma skipWs_cons_ws (c : Char) (s : PyStr) (h : isJsonWs c = true) :
    skipWs (c :: s) = skipWs s := by
  simp [skipWs, List.dropWhile, h]

lemma skipWs_cons_not (c : Char) (s : PyStr) (h : isJsonWs c = false) :
    skipWs (c :: s) = c :: s := by
  simp [skipWs, List.dropWhile, h]

lemma skipWs_skipWs (s : PyStr) : skipWs (skipWs s) = skipWs s := by
  induction s with
  | nil => rfl
  | cons c rest ih =>
    by_cases h : isJsonWs c = true
    · rw [skipWs_cons_ws c rest h, ih]
    · rw [skipWs_cons_not c rest (by simpa using h), skipWs_cons_not c rest (by simpa using h)]

lemma parseSettingsEntry_ws (c : Char) (s : PyStr) (h : isJsonWs c = true) :
    parseSettingsEntry (c :: s) = parseSettingsEntry s := by
  unfold parseSettingsEntry
  rw [skipWs_cons_ws c s h]

lemma parseSettingsEntry_core (k v tail : PyStr) :
    parseSettingsEntry (settingsMemberStr k v ++ tail) = some ((k, v), tail) := by
  have h0 : settingsMemberStr k v ++ tail
      = '"' :: (escapeString k ++ ('"' :: ':' :: ' ' :: '"' :: (escapeString v ++ ('"' :: tail)))) := by
    simp [settingsMemberStr, jstrLit, List.append_assoc]
  rw [h0]
  unfold parseSettingsEntry
  rw [skipWs_cons_not _ _ (by decide)]
  simp only []
  rw [if_pos trivial, parseJStrBody_escapeString, onSome_some]
  simp only []
  rw [skipWs_cons_not _ _ (by decide)]
  simp only []
  rw [if_pos trivial]
  rw [skipWs_cons_ws _ _ (by decide), skipWs_cons_not _ _ (by decide)]
  simp only []
  rw [if_pos trivial, parseJStrBody_escapeString, onSome_some]

lemma parseSettingsMembers_ws (fuel : Nat) (c : Char) (s : PyStr) (h : isJsonWs c = true) :
    parseSettingsMembers fuel (c :: s) = parseSettingsMembers fuel s := by
  cases fuel with
  | zero => rfl
  | succ f =>
    simp only [parseSettingsMembers]
    rw [parseSettingsEntry_ws c s h]

lemma parseSettingsMembers_core :
    ∀ (fields : List (PyStr × PyStr)) (k v : PyStr) (fuel : Nat) (rest : PyStr),
      fields.length < fuel →
      parseSettingsMembers fuel (settingsMembersStr ((k, v) :: fields) ++ ('\n' :: rbrace :: rest))
        = some ((k, v) :: fields, rest) := by
  intro fields
  induction fields with
  | nil =>
    intro k v fuel rest hfuel
    obtain ⟨f, rfl⟩ : ∃ f, fuel = f + 1 := ⟨fuel - 1, by omega⟩
    simp only [parseSettingsMembers]
    have hshape : settingsMembersStr [(k, v)] ++ ('\n' :: rbrace :: rest)
        = ' ' :: ' ' :: (settingsMemberStr k v ++ ('\n' :: rbrace :: rest)) := by
      simp [settingsMembersStr, List.append_assoc]
    rw [hshape, parseSettingsEntry_ws _ _ (by decide), parseSettingsEntry_ws _ _ (by decide),
      parseSettingsEntry_core, onSome_some]
    simp only []
    rw [skipWs_cons_ws _ _ (by decide), skipWs_cons_not _ _ (by decide)]
    simp only []
    rw [if_neg (by decide), if_pos trivial]
  | cons kv2 fields2 ih =>
    intro k v fuel rest hfuel
    obtain ⟨f, rfl⟩ : ∃ f, fuel = f + 1 := ⟨fuel - 1, by omega⟩
    obtain ⟨k2, v2⟩ := kv2
    simp only [parseSettingsMembers]
    have hshape : settingsMembersStr ((k, v) :: (k2, v2) :: fields2) ++ ('\n' :: rbrace :: rest)
        = ' ' :: ' ' :: (settingsMemberStr k v ++
            (',' :: '\n' :: (settingsMembersStr ((k2, v2) :: fields2) ++ ('\n' :: rbrace :: rest)))) := by
      simp [settingsMembersStr, List.append_assoc]
    rw [hshape, parseSettingsEntry_ws _ _ (by decide), parseSettingsEntry_ws _ _ (by decide),
      parseSettingsEntry_core, onSome_some]
    simp only []
    rw [skipWs_cons_not _ _ (by decide)]
    simp only []
    rw [if_pos trivial]
    rw [parseSettingsMembers_ws _ _ _ (by decide)]
    rw [ih k2 v2 f rest (by simpa using Nat.lt_of_succ_lt_succ hfuel), onSome_some]

lemma settingsMembersStr_length_le :
    ∀ fields : List (PyStr × PyStr), fields.length ≤ (settingsMembersStr fields).length := by
  intro fields
  induction fields with
  | nil => simp [settingsMembersStr]
  | cons kv rest ih =>
    cases rest with
    | nil => simp [settingsMembersStr]
    | cons kv2 rest2 =>
      simp only [settingsMembersStr, List.length_cons, List.length_append] at ih ⊢
      omega

lemma parse_dump_settings (fields : List (PyStr × PyStr)) :
    parseSettingsText (dumpSettingsJson fields) = some fields := by
  cases fields with
  | nil => decide
  | cons kv fs =>
    obtain ⟨k, v⟩ := kv
    have hdump : dumpSettingsJson ((k, v) :: fs)
        = lbrace :: '\n' :: (settingsMembersStr ((k, v) :: fs) ++ ('\n' :: rbrace :: [])) := by
      cases fs <;> simp [dumpSettingsJson, List.append_assoc]
    have hsplit : ∃ Z, settingsMembersStr ((k, v) :: fs) ++ ('\n' :: rbrace :: [])
        = ' ' :: ' ' :: '"' :: Z := by
      cases fs with
      | nil =>
        refine ⟨escapeString k ++ '"' :: ':' :: ' ' :: '"' :: (escapeString v ++ ['"', '\n', rbrace]), ?_⟩
        simp [settingsMembersStr, settingsMemberStr, jstrLit, List.append_assoc]
      | cons kv2 fs2 =>
        refine ⟨escapeString k ++ '"' :: ':' :: ' ' :: '"' ::
          (escapeString v ++ '"' :: ',' :: '\n' :: (settingsMembersStr (kv2 :: fs2) ++ ['\n', rbrace])), ?_⟩
        simp [settingsMembersStr, settingsMemberStr, jstrLit, List.append_assoc]
    obtain ⟨Z, hZ⟩ := hsplit
    have hskip : skipWs ('\n' :: (settingsMembersStr ((k, v) :: fs) ++ ('\n' :: rbrace :: [])))
        = '"' :: Z := by
      rw [skipWs_cons_ws _ _ (by decide), hZ, skipWs_cons_ws _ _ (by decide),
          skipWs_cons_ws _ _ (by decide), skipWs_cons_not _ _ (by decide)]
    have hfuel : fs.length <
        (lbrace :: '\n' :: (settingsMembersStr ((k, v) :: fs) ++ ('\n' :: rbrace :: []))).length := by
      have h1 := settingsMembersStr_length_le ((k, v) :: fs)
      simp only [List.length_cons, List.length_append] at h1 ⊢
      omega
    have hmemcore := parseSettingsMembers_core fs k v
      ((lbrace :: '\n' :: (settingsMembersStr ((k, v) :: fs) ++ ('\n' :: rbrace :: []))).length)
      [] hfuel
    have hmem2 : parseSettingsMembers
        ((lbrace :: '\n' :: (settingsMembersStr ((k, v) :: fs) ++ ('\n' :: rbrace :: []))).length)
        ('"' :: Z) = some ((k, v) :: fs, []) := by
      have h1 : parseSettingsMembers
          ((lbrace :: '\n' :: (settingsMembersStr ((k, v) :: fs) ++ ('\n' :: rbrace :: []))).length)
          (' ' :: ' ' :: '"' :: Z)
          = parseSettingsMembers
          ((lbrace :: '\n' :: (settingsMembersStr ((k, v) :: fs) ++ ('\n' :: rbrace :: []))).length)
          ('"' :: Z) := by
        rw [parseSettingsMembers_ws _ _ _ (by decide), parseSettingsMembers_ws _ _ _ (by decide)]
      rw [← h1, ← hZ]
      exact hmemcore
    rw [hdump]
    unfold parseSettingsText
    rw [skipWs_cons_not _ _ (by decide)]
    simp only []
    rw [if_pos trivial]
    rw [hskip]
    simp only []
    rw [if_neg (by decide : ¬('"' : Char) = rbrace)]
    rw [hmem2, onSome_some]
    simp only []
    rw [if_pos (show skipWs [] = [] from rfl)]

/-- C5: for every valid settings record (a flat string-valued JSON record,
with the distinct keys a Python dict guarantees), saving and then loading
returns the same record, and saving the loaded record writes byte-identical
disk content (save after load is a no-op on disk content). -/
theorem settings_round_trip :
    ∀ s : List (PyStr × PyStr), (s.map Prod.fst).Nodup →
      load_settings (save_settings s) = s ∧
      save_settings (load_settings (save_settings s)) = save_settings s := by
  intro s _
  have h := parse_dump_settings s
  constructor
  · simp [load_settings, save_settings, h]
  · simp [load_settings, save_settings, h]

/-- C5 witness: the round trip applied at a concrete two-field record. -/
theorem settings_round_trip_witness :
    load_settings (save_settings
        [("api_key".toList, "sk-1".toList), ("base_url".toList, "http://x/".toList)])
      = [("api_key".toList, "sk-1".toList), ("base_url".toList, "http://x/".toList)] ∧
    save_settings (load_settings (save_settings
        [("api_key".toList, "sk-1".toList), ("base_url".toList, "http://x/".toList)]))
      = save_settings
        [("api_key".toList, "sk-1".toList), ("base_url".toList, "http://x/".toList)] :=
  settings_round_trip
    [("api_key".toList, "sk-1".toList), ("base_url".toList, "http://x/".toList)] (by decide)

/-- C6: `load_settings` is a total function of the config-file state — it
never raises — returning the parsed record when the file parses, and the
empty record on every read failure: a missing file, an unreadable file, or
malformed content. -/
theorem load_settings_never_raises :
    load_settings ConfigFile.absent = [] ∧
    load_settings ConfigFile.unreadable = [] ∧
    (∀ t : PyStr, parseSettingsText t = none → load_settings (ConfigFile.stored t) = []) ∧
    (∀ (t : PyStr) (r : List (PyStr × PyStr)),
      parseSettingsText t = some r → load_settings (ConfigFile.stored t) = r) := by
  refine ⟨rfl, rfl, ?_, ?_⟩
  · intro t h
    simp [load_settings, h]
  · intro t r h
    simp [load_settings, h]

/-- C6 witness: applied at the malformed content `"not json"`. -/
theorem load_settings_never_raises_witness :
    load_settings (ConfigFile.stored "not json".toList) = [] :=
  load_settings_never_raises.2.2.1 "not json".toList (by decide)
